import Mathlib

/-
Verification development for the LogTrace Panel relay server
(server source: a single Node.js file built on socket.io).

The relay server keeps two in-memory registries:
  streams : Map<streamId, { id, name, passwordHash, createdAt, nodes : Set<socketId> }>
  nodeMap : Map<socketId, { nodeId, streamId | null }>
and uses socket.io rooms (room name = streamId) for fan-out.

The shallow embedding below models:
  - JS Map as an association list with unique keys (mapGet, mapSet, mapDelete);
  - JS Set as a duplicate-free list in insertion order (setAdd, setDelete);
  - socket.io rooms as an association list room-name to socket list; socket.join,
    socket.leave and the automatic removal from all rooms at disconnect are
    roomJoin, roomLeave, leaveAllRooms; io.to(room).emit is an Emit value whose
    recipients are the current room members;
  - uuidv4() as an entropy value carried by the triggering event: each connection
    and each create operation consumes one externally supplied draw, since the
    uuid library is an external dependency whose outputs are random;
  - Date.now() as a timestamp value carried by the triggering event;
  - the handler data argument as Option: none models a client emitting the event
    with no payload (data === undefined), in which case JS object destructuring
    of the form const { field } = data throws a TypeError.  Handlers that
    destructure data are therefore Except-valued: Except.error models the throw.
-/

structure NodeInfo where
  nodeId : String
  streamId : Option String
deriving DecidableEq, Repr

structure StreamDesc where
  id : String
  name : String
  passwordHash : String
  createdAt : Nat
  nodes : List String
deriving DecidableEq, Repr

structure ServerState where
  streams : List (String × StreamDesc)
  nodeMap : List (String × NodeInfo)
  rooms : List (String × List String)
deriving DecidableEq, Repr

def initState : ServerState := ⟨[], [], []⟩

/-- Lookup in a JS Map modelled as an association list. -/
def mapGet {β : Type} (m : List (String × β)) (k : String) : Option β :=
  match m with
  | [] => none
  | (k2, v) :: rest => if k2 = k then some v else mapGet rest k

/-- Map.set: replace the entry in place if the key is present, else append. -/
def mapSet {β : Type} (m : List (String × β)) (k : String) (v : β) : List (String × β) :=
  match m with
  | [] => [(k, v)]
  | (k2, v2) :: rest => if k2 = k then (k, v) :: rest else (k2, v2) :: mapSet rest k v

/-- Map.delete: remove the entry with the given key. -/
def mapDelete {β : Type} (m : List (String × β)) (k : String) : List (String × β) :=
  m.filter (fun p => p.1 != k)

/-- Set.add: append if not already present (JS Set keeps insertion order). -/
def setAdd (s : List String) (x : String) : List String :=
  if x ∈ s then s else s ++ [x]

/-- Set.delete: remove the element. -/
def setDelete (s : List String) (x : String) : List String :=
  s.filter (fun y => y != x)

/-- A socket.join(room) call on the socket.io adapter. -/
def roomJoin (rs : List (String × List String)) (room sock : String) :
    List (String × List String) :=
  mapSet rs room (setAdd ((mapGet rs room).getD []) sock)

/-- A socket.leave(room) call on the socket.io adapter. -/
def roomLeave (rs : List (String × List String)) (room sock : String) :
    List (String × List String) :=
  match mapGet rs room with
  | none => rs
  | some mem => mapSet rs room (setDelete mem sock)

/-- Removal of a disconnected socket from every room, performed by socket.io
itself right after the disconnect event. -/
def leaveAllRooms (rs : List (String × List String)) (sock : String) :
    List (String × List String) :=
  rs.map (fun p => (p.1, setDelete p.2 sock))

/-- The sockets currently in a room: the recipients of io.to(room).emit. -/
def roomMembers (st : ServerState) (room : String) : List String :=
  (mapGet st.rooms room).getD []

/-- JS truthiness test !s for an optional string field: true when the field is
absent (undefined) or the empty string. -/
def falsyStr : Option String → Bool
  | none => true
  | some s => s == ""

/-- The function generateNodeId from the source: node- followed by the first
eight characters of a uuidv4 draw. -/
def generateNodeId (uuid : String) : String :=
  "node-" ++ uuid.take 8

structure LogMessage where
  streamId : String
  nodeId : String
  payload : String
  level : String
  timestamp : Nat
deriving DecidableEq, Repr

structure StreamListEntry where
  id : String
  name : String
  nodeCount : Nat
  createdAt : Nat
deriving DecidableEq, Repr

inductive CreateResult where
  | ok (streamId streamName : String)
  | missingParams
deriving DecidableEq, Repr

inductive JoinResult where
  | ok (streamId streamName : String)
  | notFound
  | invalidKey
deriving DecidableEq, Repr

inductive PushResult where
  | ok
  | noStream
  | emptyPayload
deriving DecidableEq, Repr

/-- The error string carried by a failed stream:join:result, as in the source. -/
def JoinResult.errorText : JoinResult → Option String
  | JoinResult.ok _ _ => none
  | JoinResult.notFound => some "Stream not found"
  | JoinResult.invalidKey => some "Invalid access key"

/-- The error string carried by a failed log:push:result, as in the source. -/
def PushResult.errorText : PushResult → Option String
  | PushResult.ok => none
  | PushResult.noStream => some "Not connected to any stream"
  | PushResult.emptyPayload => some "Empty payload"

/-- One outbound message: either a direct socket.emit to one socket, or an
io.to(room).emit whose recipients are the room members at emission time. -/
inductive Emit where
  | nodeAssigned (sock nodeId : String)
  | createResult (sock : String) (r : CreateResult)
  | joinResult (sock : String) (r : JoinResult)
  | leaveResult (sock : String)
  | pushResult (sock : String) (r : PushResult)
  | nodeList (room streamId : String) (nodes : List String)
  | logBroadcast (room : String) (msg : LogMessage)
  | listResult (sock : String) (entries : List StreamListEntry)
deriving DecidableEq, Repr

structure CreateInput where
  streamName : Option String
  passwordHash : Option String
deriving DecidableEq, Repr

structure JoinInput where
  streamId : Option String
  passwordHash : Option String
deriving DecidableEq, Repr

structure PushInput where
  payload : Option String
  level : Option String
deriving DecidableEq, Repr

/-- The function getStreamNodes from the source: the nodeIds of the sockets in
the member set of a stream, skipping sockets whose nodeMap entry has vanished. -/
def getStreamNodes (st : ServerState) (streamId : String) : List String :=
  match mapGet st.streams streamId with
  | none => []
  | some stream =>
      stream.nodes.filterMap (fun sockId => (mapGet st.nodeMap sockId).map NodeInfo.nodeId)

/-- The function broadcastNodeList from the source: io.to(streamId) receives a
node:list event carrying the stream id and the current node list. -/
def broadcastNodeList (st : ServerState) (streamId : String) : Emit :=
  Emit.nodeList streamId streamId (getStreamNodes st streamId)

/-- The connection handler prologue: a fresh nodeId is generated from a uuid
draw, the socket is registered with no stream, and node:assigned is emitted. -/
def handleConnection (st : ServerState) (sock uuid : String) : ServerState × List Emit :=
  let nodeId := generateNodeId uuid
  ({ st with nodeMap := mapSet st.nodeMap sock ⟨nodeId, none⟩ },
   [Emit.nodeAssigned sock nodeId])

/-- The stream:create handler.  The data argument is destructured first, so a
missing data object is a thrown TypeError, modelled as Except.error.  The uuid
draw for the new stream id and the Date.now() value are explicit inputs. -/
def handleCreate (st : ServerState) (sock uuid : String) (now : Nat)
    (data : Option CreateInput) : Except Unit (ServerState × List Emit) :=
  match data with
  | none => Except.error ()
  | some d =>
      if falsyStr d.streamName || falsyStr d.passwordHash then
        Except.ok (st, [Emit.createResult sock CreateResult.missingParams])
      else
        let streamId := uuid
        let desc : StreamDesc :=
          { id := streamId, name := d.streamName.getD "", passwordHash := d.passwordHash.getD "",
            createdAt := now, nodes := [] }
        Except.ok ({ st with streams := mapSet st.streams streamId desc },
          [Emit.createResult sock (CreateResult.ok streamId (d.streamName.getD ""))])

/-- The shared remove-from-stream step: delete the socket from the member set,
leave the socket.io room, and broadcast the updated node list.  This is the
body of the stream:leave handler and of the leave-previous-stream block of the
stream:join handler. -/
def leaveCore (st : ServerState) (sock streamId : String) : ServerState × List Emit :=
  match mapGet st.streams streamId with
  | none => (st, [])
  | some stream =>
      let st2 : ServerState :=
        { st with
          streams := mapSet st.streams streamId { stream with nodes := setDelete stream.nodes sock },
          rooms := roomLeave st.rooms streamId sock }
      (st2, [broadcastNodeList st2 streamId])

/-- The leave-previous-stream block at the top of the stream:join success path. -/
def leaveOldStream (st : ServerState) (sock : String) : ServerState × List Emit :=
  match mapGet st.nodeMap sock with
  | none => (st, [])
  | some currentNode =>
      match currentNode.streamId with
      | none => (st, [])
      | some oldId => leaveCore st sock oldId

/-- The stream:join handler.  The nid argument is the nodeId captured by the
connection closure, used by nodeMap.set.  streams.get(undefined) yields
undefined, so a missing streamId field is reported as not found; a missing data
object is a thrown TypeError.  On success the stream descriptor is re-read
after the leave-previous-stream block, because in the source the stream
variable aliases the mutable registry entry. -/
def handleJoin (st : ServerState) (sock nid : String) (data : Option JoinInput) :
    Except Unit (ServerState × List Emit) :=
  match data with
  | none => Except.error ()
  | some d =>
      match d.streamId with
      | none => Except.ok (st, [Emit.joinResult sock JoinResult.notFound])
      | some streamId =>
          match mapGet st.streams streamId with
          | none => Except.ok (st, [Emit.joinResult sock JoinResult.notFound])
          | some stream =>
              if d.passwordHash ≠ some stream.passwordHash then
                Except.ok (st, [Emit.joinResult sock JoinResult.invalidKey])
              else
                let st1 := (leaveOldStream st sock).1
                let outs1 := (leaveOldStream st sock).2
                let stream1 := (mapGet st1.streams streamId).getD stream
                let st2 : ServerState :=
                  { st1 with
                    streams := mapSet st1.streams streamId
                      ({ stream1 with nodes := setAdd stream1.nodes sock }),
                    rooms := roomJoin st1.rooms streamId sock }
                let st3 : ServerState :=
                  { st2 with nodeMap := mapSet st2.nodeMap sock ⟨nid, some streamId⟩ }
                Except.ok (st3,
                  outs1 ++ [Emit.joinResult sock (JoinResult.ok streamId stream.name),
                    broadcastNodeList st3 streamId])

/-- The stream:leave handler: remove the membership if any, then always emit a
successful stream:leave:result. -/
def handleLeave (st : ServerState) (sock nid : String) : ServerState × List Emit :=
  match mapGet st.nodeMap sock with
  | none => (st, [Emit.leaveResult sock])
  | some currentNode =>
      match currentNode.streamId with
      | none => (st, [Emit.leaveResult sock])
      | some streamId =>
          let r := leaveCore st sock streamId
          let st3 : ServerState := { r.1 with nodeMap := mapSet r.1.nodeMap sock ⟨nid, none⟩ }
          (st3, r.2 ++ [Emit.leaveResult sock])

/-- The log:push handler.  The membership check precedes the destructuring of
data, which precedes the payload check; the broadcast goes to the room named by
the current stream id and carries the sender nodeId, the stream id, the
payload, the level defaulted to INFO, and the server Date.now() value. -/
def handlePush (st : ServerState) (sock : String) (now : Nat) (data : Option PushInput) :
    Except Unit (ServerState × List Emit) :=
  match mapGet st.nodeMap sock with
  | none => Except.ok (st, [Emit.pushResult sock PushResult.noStream])
  | some currentNode =>
      match currentNode.streamId with
      | none => Except.ok (st, [Emit.pushResult sock PushResult.noStream])
      | some streamId =>
          match data with
          | none => Except.error ()
          | some d =>
              if falsyStr d.payload then
                Except.ok (st, [Emit.pushResult sock PushResult.emptyPayload])
              else
                let message : LogMessage :=
                  { streamId := streamId, nodeId := currentNode.nodeId,
                    payload := d.payload.getD "", level := d.level.getD "INFO",
                    timestamp := now }
                Except.ok (st,
                  [Emit.logBroadcast streamId message, Emit.pushResult sock PushResult.ok])

/-- The stream:list handler: a diagnostic listing of every registered stream. -/
def handleList (st : ServerState) (sock : String) : ServerState × List Emit :=
  (st, [Emit.listResult sock (st.streams.map (fun p =>
    { id := p.1, name := p.2.name, nodeCount := p.2.nodes.length,
      createdAt := p.2.createdAt }))])

/-- The disconnect handler body: remove the socket from its stream if any,
broadcast the updated node list, and forget the nodeMap entry. -/
def disconnectCore (st : ServerState) (sock : String) : ServerState × List Emit :=
  match mapGet st.nodeMap sock with
  | none => (st, [])
  | some currentNode =>
      let inner : ServerState × List Emit :=
        match currentNode.streamId with
        | none => (st, [])
        | some streamId =>
            match mapGet st.streams streamId with
            | none => (st, [])
            | some stream =>
                let st2 : ServerState :=
                  { st with
                    streams := mapSet st.streams streamId
                      ({ stream with nodes := setDelete stream.nodes sock }) }
                (st2, [broadcastNodeList st2 streamId])
      ({ inner.1 with nodeMap := mapDelete inner.1.nodeMap sock }, inner.2)

/-- Disconnect-cleanup: the handler body, then the removal of the socket from
all socket.io rooms performed by the transport layer itself. -/
def handleDisconnect (st : ServerState) (sock : String) : ServerState × List Emit :=
  let r := disconnectCore st sock
  ({ r.1 with rooms := leaveAllRooms r.1.rooms sock }, r.2)

/-- One inbound event, carrying the externally supplied values the handler
consumes: the socket id, the uuid draws, the closure nodeId and the clock. -/
inductive Event where
  | connect (sock uuid : String)
  | create (sock uuid : String) (now : Nat) (data : Option CreateInput)
  | join (sock nid : String) (data : Option JoinInput)
  | leave (sock nid : String)
  | push (sock : String) (now : Nat) (data : Option PushInput)
  | list (sock : String)
  | disconnect (sock : String)
deriving DecidableEq, Repr

/-- Dispatch of one event to its handler; none models a thrown handler, which
performs no registry mutation. -/
def stepEvent (st : ServerState) : Event → Option (ServerState × List Emit)
  | Event.connect sock uuid => some (handleConnection st sock uuid)
  | Event.create sock uuid now data => (handleCreate st sock uuid now data).toOption
  | Event.join sock nid data => (handleJoin st sock nid data).toOption
  | Event.leave sock nid => some (handleLeave st sock nid)
  | Event.push sock now data => (handlePush st sock now data).toOption
  | Event.list sock => some (handleList st sock)
  | Event.disconnect sock => some (handleDisconnect st sock)

/-- Run a list of events, collecting all outbound messages.  A thrown handler
leaves the registries unchanged. -/
def runTrace (st : ServerState) : List Event → ServerState × List Emit
  | [] => (st, [])
  | e :: rest =>
      match stepEvent st e with
      | some (st2, outs) =>
          let r := runTrace st2 rest
          (r.1, outs ++ r.2)
      | none => runTrace st rest

/-- Freshness of the externally generated identifiers consumed by an event:
socket.io never reuses a live socket id, and a uuidv4 draw used as a stream id
is assumed not to collide with a registered stream.  Events that generate no
identifier are unconstrained. -/
def freshForB (st : ServerState) : Event → Bool
  | Event.connect sock _ => (mapGet st.nodeMap sock).isNone
  | Event.create _ uuid _ _ => (mapGet st.streams uuid).isNone
  | _ => true

/-- A well-formed trace: every identifier-generating event draws fresh. -/
def wfFromB (st : ServerState) : List Event → Bool
  | [] => true
  | e :: rest =>
      freshForB st e &&
        (match stepEvent st e with
         | some (st2, _) => wfFromB st2 rest
         | none => wfFromB st rest)

/-
Basic lemmas about the Map and Set model.
-/

theorem mapGet_set_self {β : Type} (m : List (String × β)) (k : String) (v : β) :
    mapGet (mapSet m k v) k = some v := by
  induction m with
  | nil => simp [mapGet, mapSet]
  | cons p rest ih =>
      obtain ⟨k2, v2⟩ := p
      by_cases h : k2 = k
      · simp [mapSet, h, mapGet]
      · simp [mapSet, h, mapGet, ih]

theorem mapGet_set_ne {β : Type} (m : List (String × β)) (k k2 : String) (v : β)
    (h : k2 ≠ k) : mapGet (mapSet m k v) k2 = mapGet m k2 := by
  have h2 : ¬ k = k2 := fun hh => h hh.symm
  induction m with
  | nil => simp [mapGet, mapSet, h2]
  | cons p rest ih =>
      obtain ⟨a, b⟩ := p
      by_cases ha : a = k
      · subst ha
        simp [mapSet, mapGet, h2]
      · simp [mapSet, ha, mapGet, ih]

theorem mapGet_delete_self {β : Type} (m : List (String × β)) (k : String) :
    mapGet (mapDelete m k) k = none := by
  induction m with
  | nil => simp [mapGet, mapDelete]
  | cons p rest ih =>
      obtain ⟨a, b⟩ := p
      by_cases ha : a = k
      · simpa [mapDelete, List.filter_cons, ha] using ih
      · simpa [mapDelete, List.filter_cons, ha, mapGet] using ih

theorem mapGet_delete_ne {β : Type} (m : List (String × β)) (k k2 : String)
    (h : k2 ≠ k) : mapGet (mapDelete m k) k2 = mapGet m k2 := by
  have h2 : ¬ k = k2 := fun hh => h hh.symm
  induction m with
  | nil => simp [mapGet, mapDelete]
  | cons p rest ih =>
      obtain ⟨a, b⟩ := p
      by_cases ha : a = k
      · subst ha
        simpa [mapDelete, List.filter_cons, mapGet, h2] using ih
      · simp only [mapDelete] at ih
        simp [mapDelete, List.filter_cons, ha, mapGet, ih]

theorem mapSet_mapSet {β : Type} (m : List (String × β)) (k : String) (v w : β) :
    mapSet (mapSet m k v) k w = mapSet m k w := by
  induction m with
  | nil => simp [mapSet]
  | cons p rest ih =>
      obtain ⟨a, b⟩ := p
      by_cases ha : a = k
      · simp [mapSet, ha]
      · simp [mapSet, ha, ih]

theorem mem_setAdd {s : List String} {x y : String} :
    x ∈ setAdd s y ↔ x ∈ s ∨ x = y := by
  unfold setAdd
  by_cases h : y ∈ s
  · simp only [if_pos h]
    constructor
    · exact Or.inl
    · rintro (hx | rfl)
      · exact hx
      · exact h
  · simp [if_neg h]

theorem mem_setDelete {s : List String} {x y : String} :
    x ∈ setDelete s y ↔ x ∈ s ∧ x ≠ y := by
  simp [setDelete, List.mem_filter]

theorem nodup_setAdd {s : List String} (y : String) (h : s.Nodup) :
    (setAdd s y).Nodup := by
  unfold setAdd
  by_cases hy : y ∈ s
  · simpa [if_pos hy]
  · simp [if_neg hy, List.nodup_append, h, hy]

theorem nodup_setDelete {s : List String} (y : String) (h : s.Nodup) :
    (setDelete s y).Nodup :=
  h.filter _

theorem setDelete_setDelete (s : List String) (x : String) :
    setDelete (setDelete s x) x = setDelete s x := by
  simp [setDelete, List.filter_filter]

theorem mapGet_leaveAllRooms (rs : List (String × List String)) (sock r : String) :
    mapGet (leaveAllRooms rs sock) r = (mapGet rs r).map (fun mem => setDelete mem sock) := by
  induction rs with
  | nil => simp [mapGet, leaveAllRooms]
  | cons p rest ih =>
      obtain ⟨a, mem⟩ := p
      by_cases ha : a = r
      · simp [leaveAllRooms, mapGet, ha]
      · simpa [leaveAllRooms, mapGet, ha] using ih

theorem members_leaveAllRooms (rs : List (String × List String)) (sock r : String) :
    (mapGet (leaveAllRooms rs sock) r).getD [] = setDelete ((mapGet rs r).getD []) sock := by
  rw [mapGet_leaveAllRooms]
  cases mapGet rs r with
  | none => simp [setDelete]
  | some mem => simp

theorem roomJoin_get_self (rs : List (String × List String)) (r s : String) :
    mapGet (roomJoin rs r s) r = some (setAdd ((mapGet rs r).getD []) s) :=
  mapGet_set_self _ _ _

theorem roomJoin_get_ne (rs : List (String × List String)) (r r2 s : String) (h : r2 ≠ r) :
    mapGet (roomJoin rs r s) r2 = mapGet rs r2 :=
  mapGet_set_ne _ _ _ _ h

theorem members_roomLeave_self (rs : List (String × List String)) (r s : String) :
    (mapGet (roomLeave rs r s) r).getD [] = setDelete ((mapGet rs r).getD []) s := by
  unfold roomLeave
  cases h : mapGet rs r with
  | none => simp [h, setDelete]
  | some mem => simp [mapGet_set_self]

theorem roomLeave_get_ne (rs : List (String × List String)) (r r2 s : String) (h : r2 ≠ r) :
    mapGet (roomLeave rs r s) r2 = mapGet rs r2 := by
  unfold roomLeave
  cases hg : mapGet rs r with
  | none => rfl
  | some mem => exact mapGet_set_ne _ _ _ _ h

/-
The invariants tying the two registries and the socket.io rooms together.
-/

/-- The two directions of the registry consistency invariant: a registered
connection whose currentStreamId is set is a member of exactly that stream, and
every socket found in a member set is a registered connection pointing back at
that stream. -/
def MembershipConsistent (st : ServerState) : Prop :=
  (∀ sock info sid, mapGet st.nodeMap sock = some info → info.streamId = some sid →
    ∃ desc, mapGet st.streams sid = some desc ∧ sock ∈ desc.nodes)
  ∧ (∀ sock sid desc, mapGet st.streams sid = some desc → sock ∈ desc.nodes →
    ∃ info, mapGet st.nodeMap sock = some info ∧ info.streamId = some sid)

/-- A connection belongs to at most one member set. -/
def SingleMembership (st : ServerState) : Prop :=
  ∀ sock sid1 sid2 d1 d2, mapGet st.streams sid1 = some d1 →
    mapGet st.streams sid2 = some d2 → sock ∈ d1.nodes → sock ∈ d2.nodes → sid1 = sid2

/-- The socket.io room of a stream holds exactly the member set of that stream,
and rooms that are not streams hold nobody. -/
def RoomsMatch (st : ServerState) : Prop :=
  ∀ room sock, sock ∈ roomMembers st room ↔
    ∃ desc, mapGet st.streams room = some desc ∧ sock ∈ desc.nodes

/-- Every member set is duplicate-free, as a JS Set is. -/
def NodesNodup (st : ServerState) : Prop :=
  ∀ sid desc, mapGet st.streams sid = some desc → desc.nodes.Nodup

/-- Every room member list is duplicate-free. -/
def RoomsNodup (st : ServerState) : Prop :=
  ∀ r, ((mapGet st.rooms r).getD []).Nodup

/-- The full inductive invariant of the relay server state. -/
def ServerInv (st : ServerState) : Prop :=
  MembershipConsistent st ∧ RoomsMatch st ∧ NodesNodup st ∧ RoomsNodup st

theorem singleMembership_of_mc (st : ServerState) (h : MembershipConsistent st) :
    SingleMembership st := by
  intro sock sid1 sid2 d1 d2 hg1 hg2 hm1 hm2
  obtain ⟨info1, hi1, hs1⟩ := h.2 sock sid1 d1 hg1 hm1
  obtain ⟨info2, hi2, hs2⟩ := h.2 sock sid2 d2 hg2 hm2
  rw [hi1] at hi2
  cases hi2
  rw [hs1] at hs2
  cases hs2
  rfl

theorem inv_initState : ServerInv initState := by
  refine ⟨⟨?_, ?_⟩, ?_, ?_, ?_⟩
  · intro sock info sid hget
    simp [initState, mapGet] at hget
  · intro sock sid desc hget
    simp [initState, mapGet] at hget
  · intro room sock
    simp [initState, roomMembers, mapGet]
  · intro sid desc hget
    simp [initState, mapGet] at hget
  · intro r
    simp [initState, mapGet]

theorem mapGet_det {β : Type} {m : List (String × β)} {k : String} {a b : β}
    (h1 : mapGet m k = some a) (h2 : mapGet m k = some b) : a = b := by
  rw [h1] at h2
  exact Option.some.inj h2

/-- Removing a socket from the member set it occupies, leaving the matching
room, and pointing its registry entry at no stream preserves the invariant.
This is the state transformation of the stream:leave handler. -/
theorem inv_detach (st : ServerState) (sock nid sid : String) (stream : StreamDesc)
    (hInv : ServerInv st) (hgs : mapGet st.streams sid = some stream)
    (hcur : ∀ sid2 d2, mapGet st.streams sid2 = some d2 → sock ∈ d2.nodes → sid2 = sid) :
    ServerInv
      ⟨mapSet st.streams sid { stream with nodes := setDelete stream.nodes sock },
       mapSet st.nodeMap sock ⟨nid, none⟩,
       roomLeave st.rooms sid sock⟩ := by
  obtain ⟨⟨hMCf, hMCb⟩, hRM, hNN, hRN⟩ := hInv
  simp only [RoomsMatch, roomMembers] at hRM
  refine ⟨⟨?_, ?_⟩, ?_, ?_, ?_⟩
  · intro sock2 info2 sid2 hget hsid2
    simp only at hget hsid2 ⊢
    by_cases hs2 : sock2 = sock
    · subst hs2
      rw [mapGet_set_self] at hget
      cases Option.some.inj hget
      simp at hsid2
    · rw [mapGet_set_ne _ _ _ _ hs2] at hget
      obtain ⟨dO, hgO, hmO⟩ := hMCf sock2 info2 sid2 hget hsid2
      by_cases he : sid2 = sid
      · subst he
        cases mapGet_det hgO hgs
        refine ⟨_, mapGet_set_self _ _ _, ?_⟩
        exact mem_setDelete.mpr ⟨hmO, hs2⟩
      · refine ⟨dO, ?_, hmO⟩
        rw [mapGet_set_ne _ _ _ _ he]
        exact hgO
  · intro sock2 sid2 desc2 hgs2 hm2
    simp only at hgs2 hm2 ⊢
    by_cases he : sid2 = sid
    · subst he
      rw [mapGet_set_self] at hgs2
      cases Option.some.inj hgs2
      obtain ⟨hm3, hne⟩ := mem_setDelete.mp hm2
      obtain ⟨info, hgi, hsi⟩ := hMCb sock2 sid2 stream hgs hm3
      refine ⟨info, ?_, hsi⟩
      rw [mapGet_set_ne _ _ _ _ hne]
      exact hgi
    · rw [mapGet_set_ne _ _ _ _ he] at hgs2
      obtain ⟨info, hgi, hsi⟩ := hMCb sock2 sid2 desc2 hgs2 hm2
      have hne : sock2 ≠ sock := by
        intro hh
        subst hh
        exact he (hcur sid2 desc2 hgs2 hm2)
      refine ⟨info, ?_, hsi⟩
      rw [mapGet_set_ne _ _ _ _ hne]
      exact hgi
  · intro room x
    simp only [RoomsMatch, roomMembers]
    by_cases he : room = sid
    · subst he
      rw [members_roomLeave_self, mapGet_set_self]
      constructor
      · intro hx
        obtain ⟨hx1, hx2⟩ := mem_setDelete.mp hx
        obtain ⟨desc, hd, hm⟩ := (hRM room x).mp hx1
        cases mapGet_det hd hgs
        exact ⟨_, rfl, mem_setDelete.mpr ⟨hm, hx2⟩⟩
      · rintro ⟨desc, hd, hm⟩
        cases Option.some.inj hd
        obtain ⟨hm1, hm2x⟩ := mem_setDelete.mp hm
        exact mem_setDelete.mpr ⟨(hRM room x).mpr ⟨stream, hgs, hm1⟩, hm2x⟩
    · rw [roomLeave_get_ne _ _ _ _ he, mapGet_set_ne _ _ _ _ he]
      exact hRM room x
  · intro sid2 desc2 hgs2
    simp only at hgs2
    by_cases he : sid2 = sid
    · subst he
      rw [mapGet_set_self] at hgs2
      cases Option.some.inj hgs2
      exact nodup_setDelete _ (hNN _ stream hgs)
    · rw [mapGet_set_ne _ _ _ _ he] at hgs2
      exact hNN sid2 desc2 hgs2
  · intro r
    simp only
    by_cases he : r = sid
    · subst he
      rw [members_roomLeave_self]
      exact nodup_setDelete _ (hRN r)
    · rw [roomLeave_get_ne _ _ _ _ he]
      exact hRN r

/-- Adding a socket that belongs to no member set to a registered stream,
joining the matching room, and pointing its registry entry at that stream
preserves the invariant.  This is the join step of the stream:join handler. -/
theorem inv_attach (st : ServerState) (sock nid sid : String) (stream : StreamDesc)
    (hInv : ServerInv st) (hgs : mapGet st.streams sid = some stream)
    (hfree : ∀ sid2 d2, mapGet st.streams sid2 = some d2 → sock ∉ d2.nodes) :
    ServerInv
      ⟨mapSet st.streams sid { stream with nodes := setAdd stream.nodes sock },
       mapSet st.nodeMap sock ⟨nid, some sid⟩,
       roomJoin st.rooms sid sock⟩ := by
  obtain ⟨⟨hMCf, hMCb⟩, hRM, hNN, hRN⟩ := hInv
  simp only [RoomsMatch, roomMembers] at hRM
  refine ⟨⟨?_, ?_⟩, ?_, ?_, ?_⟩
  · intro sock2 info2 sid2 hget hsid2
    simp only at hget hsid2 ⊢
    by_cases hs2 : sock2 = sock
    · subst hs2
      rw [mapGet_set_self] at hget
      cases Option.some.inj hget
      simp only at hsid2
      cases Option.some.inj hsid2
      refine ⟨_, mapGet_set_self _ _ _, ?_⟩
      exact mem_setAdd.mpr (Or.inr rfl)
    · rw [mapGet_set_ne _ _ _ _ hs2] at hget
      obtain ⟨dO, hgO, hmO⟩ := hMCf sock2 info2 sid2 hget hsid2
      by_cases he : sid2 = sid
      · subst he
        cases mapGet_det hgO hgs
        refine ⟨_, mapGet_set_self _ _ _, ?_⟩
        exact mem_setAdd.mpr (Or.inl hmO)
      · refine ⟨dO, ?_, hmO⟩
        rw [mapGet_set_ne _ _ _ _ he]
        exact hgO
  · intro sock2 sid2 desc2 hgs2 hm2
    simp only at hgs2 hm2 ⊢
    by_cases he : sid2 = sid
    · subst he
      rw [mapGet_set_self] at hgs2
      cases Option.some.inj hgs2
      rcases mem_setAdd.mp hm2 with hm3 | hm3
      · have hne : sock2 ≠ sock := by
          intro hh
          subst hh
          exact hfree sid2 stream hgs hm3
        obtain ⟨info, hgi, hsi⟩ := hMCb sock2 sid2 stream hgs hm3
        refine ⟨info, ?_, hsi⟩
        rw [mapGet_set_ne _ _ _ _ hne]
        exact hgi
      · subst hm3
        exact ⟨_, mapGet_set_self _ _ _, rfl⟩
    · rw [mapGet_set_ne _ _ _ _ he] at hgs2
      have hne : sock2 ≠ sock := by
        intro hh
        subst hh
        exact hfree sid2 desc2 hgs2 hm2
      obtain ⟨info, hgi, hsi⟩ := hMCb sock2 sid2 desc2 hgs2 hm2
      refine ⟨info, ?_, hsi⟩
      rw [mapGet_set_ne _ _ _ _ hne]
      exact hgi
  · intro room x
    simp only [RoomsMatch, roomMembers]
    by_cases he : room = sid
    · subst he
      rw [roomJoin_get_self, mapGet_set_self]
      simp only [Option.getD_some]
      rw [mem_setAdd]
      constructor
      · rintro (hx | rfl)
        · obtain ⟨desc, hd, hm⟩ := (hRM room x).mp hx
          cases mapGet_det hd hgs
          exact ⟨_, rfl, mem_setAdd.mpr (Or.inl hm)⟩
        · exact ⟨_, rfl, mem_setAdd.mpr (Or.inr rfl)⟩
      · rintro ⟨desc, hd, hm⟩
        cases Option.some.inj hd
        rcases mem_setAdd.mp hm with hm3 | rfl
        · exact Or.inl ((hRM room x).mpr ⟨stream, hgs, hm3⟩)
        · exact Or.inr rfl
    · rw [roomJoin_get_ne _ _ _ _ he, mapGet_set_ne _ _ _ _ he]
      exact hRM room x
  · intro sid2 desc2 hgs2
    simp only at hgs2
    by_cases he : sid2 = sid
    · subst he
      rw [mapGet_set_self] at hgs2
      cases Option.some.inj hgs2
      exact nodup_setAdd _ (hNN _ stream hgs)
    · rw [mapGet_set_ne _ _ _ _ he] at hgs2
      exact hNN sid2 desc2 hgs2
  · intro r
    simp only
    by_cases he : r = sid
    · subst he
      rw [roomJoin_get_self]
      simp only [Option.getD_some]
      exact nodup_setAdd _ (hRN r)
    · rw [roomJoin_get_ne _ _ _ _ he]
      exact hRN r

/-- Registering a fresh socket preserves the invariant. -/
theorem inv_handleConnection (st : ServerState) (sock uuid : String)
    (hInv : ServerInv st) (hfresh : mapGet st.nodeMap sock = none) :
    ServerInv (handleConnection st sock uuid).1 := by
  obtain ⟨⟨hMCf, hMCb⟩, hRM, hNN, hRN⟩ := hInv
  refine ⟨⟨?_, ?_⟩, hRM, hNN, hRN⟩
  · intro sock2 info2 sid2 hget hsid2
    simp only [handleConnection] at hget
    by_cases hs2 : sock2 = sock
    · subst hs2
      rw [mapGet_set_self] at hget
      cases Option.some.inj hget
      simp at hsid2
    · rw [mapGet_set_ne _ _ _ _ hs2] at hget
      exact hMCf sock2 info2 sid2 hget hsid2
  · intro sock2 sid2 desc2 hgs2 hm2
    obtain ⟨info, hgi, hsi⟩ := hMCb sock2 sid2 desc2 hgs2 hm2
    have hs2 : sock2 ≠ sock := by
      intro hh
      subst hh
      rw [hfresh] at hgi
      cases hgi
    refine ⟨info, ?_, hsi⟩
    simp only [handleConnection]
    rw [mapGet_set_ne _ _ _ _ hs2]
    exact hgi

/-- Registering a stream under a fresh id preserves the invariant. -/
theorem inv_handleCreate (st : ServerState) (sock uuid : String) (now : Nat)
    (data : Option CreateInput) (st2 : ServerState) (outs : List Emit)
    (hInv : ServerInv st) (hfresh : mapGet st.streams uuid = none)
    (h : handleCreate st sock uuid now data = Except.ok (st2, outs)) :
    ServerInv st2 := by
  obtain ⟨⟨hMCf, hMCb⟩, hRM, hNN, hRN⟩ := hInv
  simp only [RoomsMatch, roomMembers] at hRM
  cases data with
  | none => simp [handleCreate] at h
  | some d =>
      simp only [handleCreate] at h
      split at h
      · simp only [Except.ok.injEq, Prod.mk.injEq] at h
        obtain ⟨h1, h2⟩ := h
        subst h1
        exact ⟨⟨hMCf, hMCb⟩, hRM, hNN, hRN⟩
      · simp only [Except.ok.injEq, Prod.mk.injEq] at h
        obtain ⟨h1, h2⟩ := h
        subst h1
        refine ⟨⟨?_, ?_⟩, ?_, ?_, hRN⟩
        · intro sock2 info2 sid2 hget hsid2
          obtain ⟨dO, hgO, hmO⟩ := hMCf sock2 info2 sid2 hget hsid2
          have hne : sid2 ≠ uuid := by
            intro hh
            subst hh
            rw [hfresh] at hgO
            cases hgO
          refine ⟨dO, ?_, hmO⟩
          simp only
          rw [mapGet_set_ne _ _ _ _ hne]
          exact hgO
        · intro sock2 sid2 desc2 hgs2 hm2
          simp only at hgs2
          by_cases he : sid2 = uuid
          · subst he
            rw [mapGet_set_self] at hgs2
            cases Option.some.inj hgs2
            simp at hm2
          · rw [mapGet_set_ne _ _ _ _ he] at hgs2
            exact hMCb sock2 sid2 desc2 hgs2 hm2
        · intro room x
          simp only [RoomsMatch, roomMembers]
          by_cases he : room = uuid
          · subst he
            rw [mapGet_set_self]
            constructor
            · intro hx
              obtain ⟨desc, hd, hm⟩ := (hRM room x).mp hx
              rw [hfresh] at hd
              cases hd
            · rintro ⟨desc, hd, hm⟩
              cases Option.some.inj hd
              simp at hm
          · rw [mapGet_set_ne _ _ _ _ he]
            exact hRM room x
        · intro sid2 desc2 hgs2
          simp only at hgs2
          by_cases he : sid2 = uuid
          · subst he
            rw [mapGet_set_self] at hgs2
            cases Option.some.inj hgs2
            simp
          · rw [mapGet_set_ne _ _ _ _ he] at hgs2
            exact hNN sid2 desc2 hgs2

/-- The log:push handler never mutates the registries or the rooms. -/
theorem handlePush_state (st : ServerState) (sock : String) (now : Nat)
    (data : Option PushInput) (st2 : ServerState) (outs : List Emit)
    (h : handlePush st sock now data = Except.ok (st2, outs)) : st2 = st := by
  simp only [handlePush] at h
  split at h
  · simp only [Except.ok.injEq, Prod.mk.injEq] at h
    exact h.1.symm
  · split at h
    · simp only [Except.ok.injEq, Prod.mk.injEq] at h
      exact h.1.symm
    · split at h
      · simp at h
      · split at h
        · simp only [Except.ok.injEq, Prod.mk.injEq] at h
          exact h.1.symm
        · simp only [Except.ok.injEq, Prod.mk.injEq] at h
          exact h.1.symm

/-- The stream:leave handler preserves the invariant. -/
theorem inv_handleLeave (st : ServerState) (sock nid : String) (hInv : ServerInv st) :
    ServerInv (handleLeave st sock nid).1 := by
  cases hn : mapGet st.nodeMap sock with
  | none => simpa [handleLeave, hn] using hInv
  | some currentNode =>
      cases hs : currentNode.streamId with
      | none => simpa [handleLeave, hn, hs] using hInv
      | some sid =>
          obtain ⟨desc, hgs, hmem⟩ := hInv.1.1 sock currentNode sid hn hs
          have hcur : ∀ sid2 d2, mapGet st.streams sid2 = some d2 → sock ∈ d2.nodes →
              sid2 = sid := by
            intro sid2 d2 hg2 hm2
            obtain ⟨info, hgi, hsi⟩ := hInv.1.2 sock sid2 d2 hg2 hm2
            rw [hn] at hgi
            cases Option.some.inj hgi
            rw [hs] at hsi
            exact (Option.some.inj hsi).symm
          have hres := inv_detach st sock nid sid desc hInv hgs hcur
          simp only [handleLeave, hn, hs, leaveCore, hgs]
          exact hres

/-- Disconnect-cleanup preserves the invariant. -/
theorem inv_handleDisconnect (st : ServerState) (sock : String) (hInv : ServerInv st) :
    ServerInv (handleDisconnect st sock).1 := by
  obtain ⟨⟨hMCf, hMCb⟩, hRM, hNN, hRN⟩ := hInv
  simp only [RoomsMatch, roomMembers] at hRM
  cases hn : mapGet st.nodeMap sock with
  | none =>
      simp only [handleDisconnect, disconnectCore, hn]
      refine ⟨⟨hMCf, hMCb⟩, ?_, hNN, ?_⟩
      · intro room x
        simp only [RoomsMatch, roomMembers]
        rw [members_leaveAllRooms]
        constructor
        · intro hx
          exact (hRM room x).mp (mem_setDelete.mp hx).1
        · rintro ⟨desc, hd, hm⟩
          have hxs : x ≠ sock := by
            intro hh
            subst hh
            obtain ⟨info, hgi, _⟩ := hMCb x room desc hd hm
            rw [hn] at hgi
            cases hgi
          exact mem_setDelete.mpr ⟨(hRM room x).mpr ⟨desc, hd, hm⟩, hxs⟩
      · intro r
        simp only
        rw [members_leaveAllRooms]
        exact nodup_setDelete _ (hRN r)
  | some currentNode =>
      cases hs : currentNode.streamId with
      | none =>
          simp only [handleDisconnect, disconnectCore, hn, hs]
          refine ⟨⟨?_, ?_⟩, ?_, hNN, ?_⟩
          · intro sock2 info2 sid2 hget hsid2
            simp only at hget
            by_cases hs2 : sock2 = sock
            · subst hs2
              rw [mapGet_delete_self] at hget
              cases hget
            · rw [mapGet_delete_ne _ _ _ hs2] at hget
              exact hMCf sock2 info2 sid2 hget hsid2
          · intro sock2 sid2 desc2 hgs2 hm2
            obtain ⟨info, hgi, hsi⟩ := hMCb sock2 sid2 desc2 hgs2 hm2
            have hs2 : sock2 ≠ sock := by
              intro hh
              subst hh
              rw [hn] at hgi
              cases Option.some.inj hgi
              rw [hs] at hsi
              cases hsi
            refine ⟨info, ?_, hsi⟩
            simp only
            rw [mapGet_delete_ne _ _ _ hs2]
            exact hgi
          · intro room x
            simp only [RoomsMatch, roomMembers]
            rw [members_leaveAllRooms]
            constructor
            · intro hx
              exact (hRM room x).mp (mem_setDelete.mp hx).1
            · rintro ⟨desc, hd, hm⟩
              have hxs : x ≠ sock := by
                intro hh
                subst hh
                obtain ⟨info, hgi, hsi⟩ := hMCb x room desc hd hm
                rw [hn] at hgi
                cases Option.some.inj hgi
                rw [hs] at hsi
                cases hsi
              exact mem_setDelete.mpr ⟨(hRM room x).mpr ⟨desc, hd, hm⟩, hxs⟩
          · intro r
            simp only
            rw [members_leaveAllRooms]
            exact nodup_setDelete _ (hRN r)
      | some sid =>
          obtain ⟨stream, hgs, hmem⟩ := hMCf sock currentNode sid hn hs
          have hcur : ∀ sid2 d2, mapGet st.streams sid2 = some d2 → sock ∈ d2.nodes →
              sid2 = sid := by
            intro sid2 d2 hg2 hm2
            obtain ⟨info, hgi, hsi⟩ := hMCb sock sid2 d2 hg2 hm2
            rw [hn] at hgi
            cases Option.some.inj hgi
            rw [hs] at hsi
            exact (Option.some.inj hsi).symm
          simp only [handleDisconnect, disconnectCore, hn, hs, hgs]
          refine ⟨⟨?_, ?_⟩, ?_, ?_, ?_⟩
          · intro sock2 info2 sid2 hget hsid2
            simp only at hget
            by_cases hs2 : sock2 = sock
            · subst hs2
              rw [mapGet_delete_self] at hget
              cases hget
            · rw [mapGet_delete_ne _ _ _ hs2] at hget
              obtain ⟨dO, hgO, hmO⟩ := hMCf sock2 info2 sid2 hget hsid2
              by_cases he : sid2 = sid
              · subst he
                cases mapGet_det hgO hgs
                refine ⟨_, mapGet_set_self _ _ _, ?_⟩
                exact mem_setDelete.mpr ⟨hmO, hs2⟩
              · refine ⟨dO, ?_, hmO⟩
                simp only
                rw [mapGet_set_ne _ _ _ _ he]
                exact hgO
          · intro sock2 sid2 desc2 hgs2 hm2
            simp only at hgs2
            by_cases he : sid2 = sid
            · subst he
              rw [mapGet_set_self] at hgs2
              cases Option.some.inj hgs2
              obtain ⟨hm3, hne⟩ := mem_setDelete.mp hm2
              obtain ⟨info, hgi, hsi⟩ := hMCb sock2 sid2 stream hgs hm3
              refine ⟨info, ?_, hsi⟩
              simp only
              rw [mapGet_delete_ne _ _ _ hne]
              exact hgi
            · rw [mapGet_set_ne _ _ _ _ he] at hgs2
              have hne : sock2 ≠ sock := by
                intro hh
                subst hh
                exact he (hcur sid2 desc2 hgs2 hm2)
              obtain ⟨info, hgi, hsi⟩ := hMCb sock2 sid2 desc2 hgs2 hm2
              refine ⟨info, ?_, hsi⟩
              simp only
              rw [mapGet_delete_ne _ _ _ hne]
              exact hgi
          · intro room x
            simp only [RoomsMatch, roomMembers]
            rw [members_leaveAllRooms]
            by_cases he : room = sid
            · subst he
              rw [mapGet_set_self]
              constructor
              · intro hx
                obtain ⟨hx1, hx2⟩ := mem_setDelete.mp hx
                obtain ⟨desc, hd, hm⟩ := (hRM room x).mp hx1
                cases mapGet_det hd hgs
                exact ⟨_, rfl, mem_setDelete.mpr ⟨hm, hx2⟩⟩
              · rintro ⟨desc, hd, hm⟩
                cases Option.some.inj hd
                obtain ⟨hm1, hm2x⟩ := mem_setDelete.mp hm
                exact mem_setDelete.mpr ⟨(hRM room x).mpr ⟨stream, hgs, hm1⟩, hm2x⟩
            · rw [mapGet_set_ne _ _ _ _ he]
              constructor
              · intro hx
                exact (hRM room x).mp (mem_setDelete.mp hx).1
              · rintro ⟨desc, hd, hm⟩
                have hxs : x ≠ sock := by
                  intro hh
                  subst hh
                  exact he (hcur room desc hd hm)
                exact mem_setDelete.mpr ⟨(hRM room x).mpr ⟨desc, hd, hm⟩, hxs⟩
          · intro sid2 desc2 hgs2
            simp only at hgs2
            by_cases he : sid2 = sid
            · subst he
              rw [mapGet_set_self] at hgs2
              cases Option.some.inj hgs2
              exact nodup_setDelete _ (hNN _ stream hgs)
            · rw [mapGet_set_ne _ _ _ _ he] at hgs2
              exact hNN sid2 desc2 hgs2
          · intro r
            simp only
            rw [members_leaveAllRooms]
            exact nodup_setDelete _ (hRN r)

/-- The stream:join handler preserves the invariant. -/
theorem inv_handleJoin (st : ServerState) (sock nid : String) (data : Option JoinInput)
    (st2 : ServerState) (outs : List Emit) (hInv : ServerInv st)
    (h : handleJoin st sock nid data = Except.ok (st2, outs)) : ServerInv st2 := by
  cases data with
  | none => simp [handleJoin] at h
  | some d =>
      simp only [handleJoin] at h
      cases hsid : d.streamId with
      | none =>
          simp only [hsid, Except.ok.injEq, Prod.mk.injEq] at h
          obtain ⟨h1, h2⟩ := h
          subst h1
          exact hInv
      | some sid =>
          simp only [hsid] at h
          cases hgs : mapGet st.streams sid with
          | none =>
              simp only [hgs, Except.ok.injEq, Prod.mk.injEq] at h
              obtain ⟨h1, h2⟩ := h
              subst h1
              exact hInv
          | some stream =>
              simp only [hgs] at h
              by_cases hpw : d.passwordHash ≠ some stream.passwordHash
              · rw [if_pos hpw] at h
                simp only [Except.ok.injEq, Prod.mk.injEq] at h
                obtain ⟨h1, h2⟩ := h
                subst h1
                exact hInv
              · rw [if_neg hpw] at h
                simp only [Except.ok.injEq, Prod.mk.injEq] at h
                obtain ⟨h1, h2⟩ := h
                subst h1
                cases hn : mapGet st.nodeMap sock with
                | none =>
                    have hLO : leaveOldStream st sock = (st, []) := by
                      simp [leaveOldStream, hn]
                    have hfree : ∀ sid2 d2, mapGet st.streams sid2 = some d2 →
                        sock ∉ d2.nodes := by
                      intro sid2 d2 hg2 hm2
                      obtain ⟨info, hgi, _⟩ := hInv.1.2 sock sid2 d2 hg2 hm2
                      rw [hn] at hgi
                      cases hgi
                    have happ := inv_attach st sock nid sid stream hInv hgs hfree
                    simp only [hLO, hgs, Option.getD_some]
                    exact happ
                | some currentNode =>
                    cases hs : currentNode.streamId with
                    | none =>
                        have hLO : leaveOldStream st sock = (st, []) := by
                          simp [leaveOldStream, hn, hs]
                        have hfree : ∀ sid2 d2, mapGet st.streams sid2 = some d2 →
                            sock ∉ d2.nodes := by
                          intro sid2 d2 hg2 hm2
                          obtain ⟨info, hgi, hsi⟩ := hInv.1.2 sock sid2 d2 hg2 hm2
                          rw [hn] at hgi
                          cases Option.some.inj hgi
                          rw [hs] at hsi
                          cases hsi
                        have happ := inv_attach st sock nid sid stream hInv hgs hfree
                        simp only [hLO, hgs, Option.getD_some]
                        exact happ
                    | some oldId =>
                        obtain ⟨oldStream, hgOld, hmOld⟩ :=
                          hInv.1.1 sock currentNode oldId hn hs
                        have hcur : ∀ sid2 d2, mapGet st.streams sid2 = some d2 →
                            sock ∈ d2.nodes → sid2 = oldId := by
                          intro sid2 d2 hg2 hm2
                          obtain ⟨info, hgi, hsi⟩ := hInv.1.2 sock sid2 d2 hg2 hm2
                          rw [hn] at hgi
                          cases Option.some.inj hgi
                          rw [hs] at hsi
                          exact (Option.some.inj hsi).symm
                        have hLO : leaveOldStream st sock =
                            (⟨mapSet st.streams oldId
                                { oldStream with nodes := setDelete oldStream.nodes sock },
                              st.nodeMap,
                              roomLeave st.rooms oldId sock⟩,
                             (leaveOldStream st sock).2) := by
                          simp only [leaveOldStream, hn, hs, leaveCore, hgOld]
                        have hInvD := inv_detach st sock nid oldId oldStream hInv hgOld hcur
                        rw [hLO]
                        simp only
                        by_cases hoe : oldId = sid
                        · subst hoe
                          cases mapGet_det hgOld hgs
                          have hg2 : mapGet
                              (mapSet st.streams oldId
                                { stream with nodes := setDelete stream.nodes sock })
                              oldId =
                              some { stream with nodes := setDelete stream.nodes sock } :=
                            mapGet_set_self _ _ _
                          have hfreeD : ∀ sid2 d2,
                              mapGet (mapSet st.streams oldId
                                { stream with nodes := setDelete stream.nodes sock })
                                sid2 = some d2 → sock ∉ d2.nodes := by
                            intro sid2 d2 hg2x hm2x
                            by_cases hex : sid2 = oldId
                            · subst hex
                              rw [mapGet_set_self] at hg2x
                              cases Option.some.inj hg2x
                              exact (mem_setDelete.mp hm2x).2 rfl
                            · rw [mapGet_set_ne _ _ _ _ hex] at hg2x
                              exact absurd (hcur sid2 d2 hg2x hm2x) hex
                          have happ := inv_attach
                            ⟨mapSet st.streams oldId
                                { stream with nodes := setDelete stream.nodes sock },
                              mapSet st.nodeMap sock ⟨nid, none⟩,
                              roomLeave st.rooms oldId sock⟩
                            sock nid oldId
                            { stream with nodes := setDelete stream.nodes sock }
                            hInvD hg2 hfreeD
                          simp only at happ
                          rw [mapSet_mapSet] at happ
                          rw [mapSet_mapSet] at happ
                          simp only [hg2, Option.getD_some]
                          rw [mapSet_mapSet]
                          exact happ
                        · have hg2 : mapGet
                              (mapSet st.streams oldId
                                { oldStream with nodes := setDelete oldStream.nodes sock })
                              sid = some stream := by
                            rw [mapGet_set_ne _ _ _ _ (fun hh => hoe hh.symm)]
                            exact hgs
                          have hfreeD : ∀ sid2 d2,
                              mapGet (mapSet st.streams oldId
                                { oldStream with nodes := setDelete oldStream.nodes sock })
                                sid2 = some d2 → sock ∉ d2.nodes := by
                            intro sid2 d2 hg2x hm2x
                            by_cases hex : sid2 = oldId
                            · subst hex
                              rw [mapGet_set_self] at hg2x
                              cases Option.some.inj hg2x
                              exact (mem_setDelete.mp hm2x).2 rfl
                            · rw [mapGet_set_ne _ _ _ _ hex] at hg2x
                              exact absurd (hcur sid2 d2 hg2x hm2x) hex
                          have happ := inv_attach
                            ⟨mapSet st.streams oldId
                                { oldStream with nodes := setDelete oldStream.nodes sock },
                              mapSet st.nodeMap sock ⟨nid, none⟩,
                              roomLeave st.rooms oldId sock⟩
                            sock nid sid stream hInvD hg2 hfreeD
                          simp only at happ
                          rw [mapSet_mapSet] at happ
                          simp only [hg2, Option.getD_some]
                          exact happ

/-- Every completed event preserves the invariant, given fresh identifier
draws. -/
theorem inv_stepEvent (st : ServerState) (e : Event) (st2 : ServerState) (outs : List Emit)
    (hInv : ServerInv st) (hfresh : freshForB st e = true)
    (h : stepEvent st e = some (st2, outs)) : ServerInv st2 := by
  cases e with
  | connect sock uuid =>
      simp only [stepEvent, Option.some.injEq] at h
      have hf : mapGet st.nodeMap sock = none := by
        simpa [freshForB, Option.isNone_iff_eq_none] using hfresh
      have hres := inv_handleConnection st sock uuid hInv hf
      rw [h] at hres
      exact hres
  | create sock uuid now data =>
      simp only [stepEvent] at h
      have hf : mapGet st.streams uuid = none := by
        simpa [freshForB, Option.isNone_iff_eq_none] using hfresh
      cases hc : handleCreate st sock uuid now data with
      | error err =>
          rw [hc] at h
          simp [Except.toOption] at h
      | ok p =>
          rw [hc] at h
          simp only [Except.toOption, Option.some.injEq] at h
          rw [h] at hc
          exact inv_handleCreate st sock uuid now data st2 outs hInv hf hc
  | join sock nid data =>
      simp only [stepEvent] at h
      cases hc : handleJoin st sock nid data with
      | error err =>
          rw [hc] at h
          simp [Except.toOption] at h
      | ok p =>
          rw [hc] at h
          simp only [Except.toOption, Option.some.injEq] at h
          rw [h] at hc
          exact inv_handleJoin st sock nid data st2 outs hInv hc
  | leave sock nid =>
      simp only [stepEvent, Option.some.injEq] at h
      have hres := inv_handleLeave st sock nid hInv
      rw [h] at hres
      exact hres
  | push sock now data =>
      simp only [stepEvent] at h
      cases hc : handlePush st sock now data with
      | error err =>
          rw [hc] at h
          simp [Except.toOption] at h
      | ok p =>
          rw [hc] at h
          simp only [Except.toOption, Option.some.injEq] at h
          rw [h] at hc
          rw [handlePush_state st sock now data st2 outs hc]
          exact hInv
  | list sock =>
      simp only [stepEvent, handleList, Option.some.injEq, Prod.mk.injEq] at h
      rw [← h.1]
      exact hInv
  | disconnect sock =>
      simp only [stepEvent, Option.some.injEq] at h
      have hres := inv_handleDisconnect st sock hInv
      rw [h] at hres
      exact hres

/-- The invariant holds after any well-formed trace of events. -/
theorem inv_runTrace (st : ServerState) (es : List Event) (hInv : ServerInv st)
    (hwf : wfFromB st es = true) : ServerInv (runTrace st es).1 := by
  induction es generalizing st with
  | nil => simpa [runTrace]
  | cons e rest ih =>
      simp only [wfFromB, Bool.and_eq_true] at hwf
      obtain ⟨hf, hrest⟩ := hwf
      cases hstep : stepEvent st e with
      | none =>
          simp only [runTrace, hstep]
          rw [hstep] at hrest
          simp only at hrest
          exact ih st hInv hrest
      | some p =>
          obtain ⟨st2, outs⟩ := p
          simp only [runTrace, hstep]
          rw [hstep] at hrest
          simp only at hrest
          exact ih st2 (inv_stepEvent st e st2 outs hInv hf hstep) hrest

/-- The claim-level reading of registry consistency: for a registered
connection, currentStreamId points at a stream exactly when the connection sits
in that member set. -/
theorem membership_iff_of_mc (st : ServerState) (h : MembershipConsistent st) :
    ∀ sock info, mapGet st.nodeMap sock = some info →
      ∀ sid, (info.streamId = some sid ↔
        ∃ desc, mapGet st.streams sid = some desc ∧ sock ∈ desc.nodes) := by
  intro sock info hget sid
  constructor
  · exact fun hs => h.1 sock info sid hget hs
  · rintro ⟨desc, hd, hm⟩
    obtain ⟨info2, hg2, hs2⟩ := h.2 sock sid desc hd hm
    cases mapGet_det hget hg2
    exact hs2

/-- A concrete five-event trace used by the concrete instantiations below: two
connections, one stream created with token t1, both connections joined. -/
def esW : List Event :=
  [Event.connect "sA" "aaaa1111-0000", Event.connect "sB" "bbbb2222-0000",
   Event.create "sA" "S1" 5 (some ⟨some "alpha", some "t1"⟩),
   Event.join "sA" "node-aaaa1111" (some ⟨some "S1", some "t1"⟩),
   Event.join "sB" "node-bbbb2222" (some ⟨some "S1", some "t1"⟩)]

/-- The server state reached by the esW trace. -/
def stW : ServerState := (runTrace initState esW).1

/-- Claim C1: after every completed operation of a well-formed trace, a
registered connection has currentStreamId non-null exactly when it is present
in that stream's member set, and it is present in at most one member set. -/
theorem c1_membership_invariant (es : List Event) (hwf : wfFromB initState es = true) :
    (∀ sock info, mapGet (runTrace initState es).1.nodeMap sock = some info →
      ∀ sid, (info.streamId = some sid ↔
        ∃ desc, mapGet (runTrace initState es).1.streams sid = some desc ∧ sock ∈ desc.nodes))
    ∧ SingleMembership (runTrace initState es).1 := by
  have hInv := inv_runTrace initState es inv_initState hwf
  exact ⟨membership_iff_of_mc _ hInv.1, singleMembership_of_mc _ hInv.1⟩

/-- Witness for C1 at the concrete esW trace. -/
theorem c1_membership_invariant_witness :
    (∀ sock info, mapGet (runTrace initState esW).1.nodeMap sock = some info →
      ∀ sid, (info.streamId = some sid ↔
        ∃ desc, mapGet (runTrace initState esW).1.streams sid = some desc ∧ sock ∈ desc.nodes))
    ∧ SingleMembership (runTrace initState esW).1 :=
  c1_membership_invariant esW (by decide)

/-- A join request is answered with a success result. -/
def joinSucceeds (st : ServerState) (sock nid : String) (d : JoinInput) : Prop :=
  ∃ st2 outs sid name, handleJoin st sock nid (some d) = Except.ok (st2, outs) ∧
    Emit.joinResult sock (JoinResult.ok sid name) ∈ outs

/-- Claim C2: join succeeds exactly when the stream exists and the supplied
token equals the stored one; an unknown stream id is answered not-found and a
mismatched token unauthorized, both leaving the whole state untouched. -/
theorem c2_join_auth (st : ServerState) (sock nid : String) (d : JoinInput) :
    (joinSucceeds st sock nid d ↔
      ∃ sid stream, d.streamId = some sid ∧ mapGet st.streams sid = some stream ∧
        d.passwordHash = some stream.passwordHash)
    ∧ (d.streamId.bind (mapGet st.streams) = none →
        handleJoin st sock nid (some d) =
          Except.ok (st, [Emit.joinResult sock JoinResult.notFound]))
    ∧ (∀ sid stream, d.streamId = some sid → mapGet st.streams sid = some stream →
        d.passwordHash ≠ some stream.passwordHash →
        handleJoin st sock nid (some d) =
          Except.ok (st, [Emit.joinResult sock JoinResult.invalidKey])) := by
  refine ⟨⟨?_, ?_⟩, ?_, ?_⟩
  · rintro ⟨st2, outs, sid0, name0, hok, hmem⟩
    cases hsid : d.streamId with
    | none =>
        have hcomp : handleJoin st sock nid (some d) =
            Except.ok (st, [Emit.joinResult sock JoinResult.notFound]) := by
          simp [handleJoin, hsid]
        rw [hcomp] at hok
        simp only [Except.ok.injEq, Prod.mk.injEq] at hok
        rw [← hok.2] at hmem
        simp at hmem
    | some sid =>
        cases hg : mapGet st.streams sid with
        | none =>
            have hcomp : handleJoin st sock nid (some d) =
                Except.ok (st, [Emit.joinResult sock JoinResult.notFound]) := by
              simp [handleJoin, hsid, hg]
            rw [hcomp] at hok
            simp only [Except.ok.injEq, Prod.mk.injEq] at hok
            rw [← hok.2] at hmem
            simp at hmem
        | some stream =>
            by_cases hpw : d.passwordHash ≠ some stream.passwordHash
            · have hcomp : handleJoin st sock nid (some d) =
                  Except.ok (st, [Emit.joinResult sock JoinResult.invalidKey]) := by
                simp only [handleJoin, hsid, hg]
                rw [if_pos hpw]
              rw [hcomp] at hok
              simp only [Except.ok.injEq, Prod.mk.injEq] at hok
              rw [← hok.2] at hmem
              simp at hmem
            · exact ⟨sid, stream, rfl, hg, not_not.mp hpw⟩
  · rintro ⟨sid, stream, hsid, hg, hpw⟩
    have hne : ¬ d.passwordHash ≠ some stream.passwordHash := by simp [hpw]
    unfold joinSucceeds
    simp only [handleJoin, hsid, hg]
    rw [if_neg hne]
    refine ⟨_, _, sid, stream.name, rfl, ?_⟩
    simp
  · intro hb
    cases hsid : d.streamId with
    | none => simp [handleJoin, hsid]
    | some sid =>
        rw [hsid] at hb
        simp only [Option.some_bind] at hb
        simp [handleJoin, hsid, hb]
  · intro sid stream hsid hg hne
    simp only [handleJoin, hsid, hg]
    rw [if_pos hne]

/-- Witness for C2: on the concrete state a correct token join succeeds, an
unknown stream id is answered not-found, and a wrong token unauthorized. -/
theorem c2_join_auth_witness :
    joinSucceeds stW "sB" "node-bbbb2222" ⟨some "S1", some "t1"⟩
    ∧ handleJoin stW "sB" "node-bbbb2222" (some ⟨some "missing", some "t1"⟩) =
        Except.ok (stW, [Emit.joinResult "sB" JoinResult.notFound])
    ∧ handleJoin stW "sB" "node-bbbb2222" (some ⟨some "S1", some "wrong"⟩) =
        Except.ok (stW, [Emit.joinResult "sB" JoinResult.invalidKey]) := by
  refine ⟨?_, ?_, ?_⟩
  · exact (c2_join_auth stW "sB" "node-bbbb2222" ⟨some "S1", some "t1"⟩).1.mpr
      ⟨"S1", ⟨"S1", "alpha", "t1", 5, ["sA", "sB"]⟩, rfl, by decide, rfl⟩
  · exact (c2_join_auth stW "sB" "node-bbbb2222" ⟨some "missing", some "t1"⟩).2.1 (by decide)
  · exact (c2_join_auth stW "sB" "node-bbbb2222" ⟨some "S1", some "wrong"⟩).2.2
      "S1" ⟨"S1", "alpha", "t1", 5, ["sA", "sB"]⟩ rfl (by decide) (by decide)

/-- Claim C5: create fails with the missing-parameters error and leaves the
whole state untouched when name or token is falsy; otherwise it succeeds,
registers a stream with the supplied name and token, an empty member set and
the uuid draw as id, and under a fresh draw the registry gains exactly that
stream while the connection registry is untouched. -/
theorem c5_create_validation (st : ServerState) (sock uuid : String) (now : Nat)
    (d : CreateInput) :
    ((falsyStr d.streamName || falsyStr d.passwordHash) = true →
      handleCreate st sock uuid now (some d) =
        Except.ok (st, [Emit.createResult sock CreateResult.missingParams]))
    ∧ ((falsyStr d.streamName || falsyStr d.passwordHash) = false →
        handleCreate st sock uuid now (some d) =
          Except.ok
            ({ st with
                streams := mapSet st.streams uuid
                  ({ id := uuid, name := d.streamName.getD "",
                     passwordHash := d.passwordHash.getD "", createdAt := now,
                     nodes := [] }) },
             [Emit.createResult sock (CreateResult.ok uuid (d.streamName.getD ""))]))
    ∧ ((falsyStr d.streamName || falsyStr d.passwordHash) = false →
        mapGet st.streams uuid = none →
        ∀ st2 outs, handleCreate st sock uuid now (some d) = Except.ok (st2, outs) →
          (∃ desc, mapGet st2.streams uuid = some desc ∧ desc.nodes = [] ∧
            desc.passwordHash = d.passwordHash.getD "" ∧ desc.name = d.streamName.getD "")
          ∧ (∀ sid2, sid2 ≠ uuid → mapGet st2.streams sid2 = mapGet st.streams sid2)
          ∧ st2.nodeMap = st.nodeMap) := by
  refine ⟨?_, ?_, ?_⟩
  · intro hv
    simp [handleCreate, hv]
  · intro hv
    simp [handleCreate, hv]
  · intro hv hfresh st2 outs heq
    rw [handleCreate] at heq
    simp only [hv, Bool.false_eq_true, if_false, Except.ok.injEq, Prod.mk.injEq] at heq
    obtain ⟨h1, h2⟩ := heq
    subst h1
    refine ⟨⟨_, mapGet_set_self _ _ _, rfl, rfl, rfl⟩, ?_, rfl⟩
    intro sid2 hne
    exact mapGet_set_ne _ _ _ _ hne

/-- Witness for C5: a create with a missing token is rejected, and a valid
create on the concrete state registers the new empty stream. -/
theorem c5_create_validation_witness :
    handleCreate stW "sA" "S2" 9 (some ⟨some "beta", none⟩) =
      Except.ok (stW, [Emit.createResult "sA" CreateResult.missingParams])
    ∧ (∃ desc, mapGet ({ stW with
          streams := mapSet stW.streams "S2"
            ({ id := "S2", name := "beta", passwordHash := "t2", createdAt := 9,
               nodes := [] }) } : ServerState).streams "S2" = some desc ∧
          desc.nodes = [] ∧ desc.passwordHash = "t2" ∧ desc.name = "beta") := by
  constructor
  · exact (c5_create_validation stW "sA" "S2" 9 ⟨some "beta", none⟩).1 rfl
  · have h := (c5_create_validation stW "sA" "S2" 9 ⟨some "beta", some "t2"⟩).2.2
      rfl (by decide) _ _
      ((c5_create_validation stW "sA" "S2" 9 ⟨some "beta", some "t2"⟩).2.1 rfl)
    exact h.1

/-- Claim C6: push answers no-stream exactly when the sender has no current
membership, and given a membership answers empty-payload exactly when the
payload field is falsy; in both failure cases the state is returned untouched
and the only emit is the failure result, and with a membership and a non-empty
payload the push succeeds with a broadcast. -/
theorem c6_push_errors (st : ServerState) (sock : String) (now : Nat) :
    (∀ data, (mapGet st.nodeMap sock = none ∨
        (∃ info, mapGet st.nodeMap sock = some info ∧ info.streamId = none)) →
      handlePush st sock now data =
        Except.ok (st, [Emit.pushResult sock PushResult.noStream]))
    ∧ (∀ d info sid, mapGet st.nodeMap sock = some info → info.streamId = some sid →
        falsyStr d.payload = true →
        handlePush st sock now (some d) =
          Except.ok (st, [Emit.pushResult sock PushResult.emptyPayload]))
    ∧ (∀ d info sid, mapGet st.nodeMap sock = some info → info.streamId = some sid →
        falsyStr d.payload = false →
        handlePush st sock now (some d) =
          Except.ok (st,
            [Emit.logBroadcast sid
              { streamId := sid, nodeId := info.nodeId, payload := d.payload.getD "",
                level := d.level.getD "INFO", timestamp := now },
             Emit.pushResult sock PushResult.ok])) := by
  refine ⟨?_, ?_, ?_⟩
  · rintro data (hn | ⟨info, hn, hs⟩)
    · simp [handlePush, hn]
    · simp [handlePush, hn, hs]
  · intro d info sid hn hs hp
    simp [handlePush, hn, hs, hp]
  · intro d info sid hn hs hp
    simp [handlePush, hn, hs, hp]

/-- Witness for C6 at concrete states: a push by an unregistered connection is
answered no-stream, an empty payload by a member empty-payload, and a real
payload by a member succeeds. -/
theorem c6_push_errors_witness :
    handlePush stW "sZ" 7 (some ⟨some "p", none⟩) =
      Except.ok (stW, [Emit.pushResult "sZ" PushResult.noStream])
    ∧ handlePush stW "sA" 7 (some ⟨some "", none⟩) =
      Except.ok (stW, [Emit.pushResult "sA" PushResult.emptyPayload])
    ∧ handlePush stW "sA" 7 (some ⟨some "p", some "WARN"⟩) =
      Except.ok (stW,
        [Emit.logBroadcast "S1"
          { streamId := "S1", nodeId := "node-aaaa1111", payload := "p",
            level := "WARN", timestamp := 7 },
         Emit.pushResult "sA" PushResult.ok]) := by
  refine ⟨?_, ?_, ?_⟩
  · exact (c6_push_errors stW "sZ" 7).1 (some ⟨some "p", none⟩) (Or.inl (by decide))
  · exact (c6_push_errors stW "sA" 7).2.1 ⟨some "", none⟩
      ⟨"node-aaaa1111", some "S1"⟩ "S1" (by decide) rfl rfl
  · exact (c6_push_errors stW "sA" 7).2.2 ⟨some "p", some "WARN"⟩
      ⟨"node-aaaa1111", some "S1"⟩ "S1" (by decide) rfl rfl

/-- Claim C10: the membership check of the push handler precedes the payload
check, so a connection without membership always gets the no-stream error,
whatever the data argument is, and the empty-payload error can only ever be
answered to a connection that currently has a stream membership. -/
theorem c10_nostream_precedence (st : ServerState) (sock : String) (now : Nat) :
    (∀ data, (mapGet st.nodeMap sock = none ∨
        (∃ info, mapGet st.nodeMap sock = some info ∧ info.streamId = none)) →
      handlePush st sock now data =
        Except.ok (st, [Emit.pushResult sock PushResult.noStream]))
    ∧ (∀ data st2 outs, handlePush st sock now data = Except.ok (st2, outs) →
        Emit.pushResult sock PushResult.emptyPayload ∈ outs →
        ∃ info sid, mapGet st.nodeMap sock = some info ∧ info.streamId = some sid) := by
  constructor
  · rintro data (hn | ⟨info, hn, hs⟩)
    · simp [handlePush, hn]
    · simp [handlePush, hn, hs]
  · intro data st2 outs h hmem
    cases hn : mapGet st.nodeMap sock with
    | none =>
        simp only [handlePush, hn, Except.ok.injEq, Prod.mk.injEq] at h
        rw [← h.2] at hmem
        simp at hmem
    | some info =>
        cases hs : info.streamId with
        | none =>
            simp only [handlePush, hn, hs, Except.ok.injEq, Prod.mk.injEq] at h
            rw [← h.2] at hmem
            simp at hmem
        | some sid => exact ⟨info, sid, rfl, hs⟩

/-- Witness for C10: a connection with no membership pushing an empty payload
still gets the no-stream error, and the empty-payload answer on the concrete
state implies the sender holds a membership. -/
theorem c10_nostream_precedence_witness :
    handlePush stW "sZ" 7 (some ⟨none, none⟩) =
      Except.ok (stW, [Emit.pushResult "sZ" PushResult.noStream])
    ∧ handlePush stW "sZ" 7 none =
      Except.ok (stW, [Emit.pushResult "sZ" PushResult.noStream])
    ∧ (∃ info sid, mapGet stW.nodeMap "sA" = some info ∧ info.streamId = some sid) := by
  refine ⟨?_, ?_, ?_⟩
  · exact (c10_nostream_precedence stW "sZ" 7).1 (some ⟨none, none⟩) (Or.inl (by decide))
  · exact (c10_nostream_precedence stW "sZ" 7).1 none (Or.inl (by decide))
  · exact (c10_nostream_precedence stW "sA" 7).2 (some ⟨some "", none⟩) stW
      [Emit.pushResult "sA" PushResult.emptyPayload] (by rfl) (by simp)

theorem leaveAllRooms_idem (rs : List (String × List String)) (sock : String) :
    leaveAllRooms (leaveAllRooms rs sock) sock = leaveAllRooms rs sock := by
  simp [leaveAllRooms, List.map_map, Function.comp, setDelete_setDelete]

theorem handleDisconnect_nodeMap_gone (st : ServerState) (sock : String) :
    mapGet (handleDisconnect st sock).1.nodeMap sock = none := by
  cases hn : mapGet st.nodeMap sock with
  | none => simp only [handleDisconnect, disconnectCore, hn]
  | some currentNode =>
      simp only [handleDisconnect, disconnectCore, hn]
      exact mapGet_delete_self _ _

/-- Claim C8: a second disconnect-cleanup for the same socket leaves the state
exactly where the first left it and emits nothing; the first removes the
membership exactly once and sends exactly one membership notification when a
membership existed. -/
theorem c8_cleanup_idempotent (st : ServerState) (sock : String) :
    handleDisconnect (handleDisconnect st sock).1 sock = ((handleDisconnect st sock).1, [])
    ∧ (∀ info sid stream, mapGet st.nodeMap sock = some info → info.streamId = some sid →
        mapGet st.streams sid = some stream →
        (∃ ns, (handleDisconnect st sock).2 = [Emit.nodeList sid sid ns])
        ∧ ∃ desc2, mapGet (handleDisconnect st sock).1.streams sid = some desc2 ∧
            sock ∉ desc2.nodes ∧ ∀ y, y ∈ desc2.nodes ↔ y ∈ stream.nodes ∧ y ≠ sock) := by
  constructor
  · have hnone := handleDisconnect_nodeMap_gone st sock
    have hrooms : (handleDisconnect st sock).1.rooms =
        leaveAllRooms (disconnectCore st sock).1.rooms sock := by
      simp [handleDisconnect]
    rw [handleDisconnect, disconnectCore]
    rw [hnone]
    simp only
    rw [hrooms, leaveAllRooms_idem]
    rw [← hrooms]
  · intro info sid stream hn hs hgs
    simp only [handleDisconnect, disconnectCore, hn, hs, hgs]
    constructor
    · exact ⟨_, rfl⟩
    · refine ⟨_, mapGet_set_self _ _ _, ?_, ?_⟩
      · intro hmem
        exact (mem_setDelete.mp hmem).2 rfl
      · intro y
        exact mem_setDelete

/-- Witness for C8: on the concrete state the first cleanup of sA emits one
node list for S1 and removes exactly sA from the member set. -/
theorem c8_cleanup_idempotent_witness :
    (∃ ns, (handleDisconnect stW "sA").2 = [Emit.nodeList "S1" "S1" ns])
    ∧ ∃ desc2, mapGet (handleDisconnect stW "sA").1.streams "S1" = some desc2 ∧
        "sA" ∉ desc2.nodes ∧
        ∀ y, y ∈ desc2.nodes ↔ y ∈ (["sA", "sB"] : List String) ∧ y ≠ "sA" :=
  (c8_cleanup_idempotent stW "sA").2 ⟨"node-aaaa1111", some "S1"⟩ "S1"
    ⟨"S1", "alpha", "t1", 5, ["sA", "sB"]⟩ (by decide) rfl (by decide)

theorem mapGet_set_isSome {β : Type} (m : List (String × β)) (k k2 : String) (v : β)
    (h : (mapGet m k2).isSome = true) : (mapGet (mapSet m k v) k2).isSome = true := by
  by_cases he : k2 = k
  · subst he
    rw [mapGet_set_self]
    rfl
  · rw [mapGet_set_ne _ _ _ _ he]
    exact h

theorem leaveCore_streams_isSome (st : ServerState) (sock sid sid2 : String)
    (h : (mapGet st.streams sid2).isSome = true) :
    (mapGet (leaveCore st sock sid).1.streams sid2).isSome = true := by
  cases hgs : mapGet st.streams sid with
  | none =>
      simp only [leaveCore, hgs]
      exact h
  | some stream =>
      simp only [leaveCore, hgs]
      exact mapGet_set_isSome _ _ _ _ h

theorem leaveOldStream_streams_isSome (st : ServerState) (sock sid2 : String)
    (h : (mapGet st.streams sid2).isSome = true) :
    (mapGet (leaveOldStream st sock).1.streams sid2).isSome = true := by
  cases hn : mapGet st.nodeMap sock with
  | none =>
      simp only [leaveOldStream, hn]
      exact h
  | some currentNode =>
      cases hs : currentNode.streamId with
      | none =>
          simp only [leaveOldStream, hn, hs]
          exact h
      | some oldId =>
          simp only [leaveOldStream, hn, hs]
          exact leaveCore_streams_isSome st sock oldId sid2 h

theorem handleJoin_streams_isSome (st : ServerState) (sock nid : String)
    (data : Option JoinInput) (st2 : ServerState) (outs : List Emit)
    (h : handleJoin st sock nid data = Except.ok (st2, outs))
    (sid2 : String) (hsome : (mapGet st.streams sid2).isSome = true) :
    (mapGet st2.streams sid2).isSome = true := by
  cases data with
  | none => simp [handleJoin] at h
  | some d =>
      simp only [handleJoin] at h
      cases hsid : d.streamId with
      | none =>
          simp only [hsid, Except.ok.injEq, Prod.mk.injEq] at h
          rw [← h.1]
          exact hsome
      | some sid =>
          simp only [hsid] at h
          cases hgs : mapGet st.streams sid with
          | none =>
              simp only [hgs, Except.ok.injEq, Prod.mk.injEq] at h
              rw [← h.1]
              exact hsome
          | some stream =>
              simp only [hgs] at h
              by_cases hpw : d.passwordHash ≠ some stream.passwordHash
              · rw [if_pos hpw] at h
                simp only [Except.ok.injEq, Prod.mk.injEq] at h
                rw [← h.1]
                exact hsome
              · rw [if_neg hpw] at h
                simp only [Except.ok.injEq, Prod.mk.injEq] at h
                rw [← h.1]
                exact mapGet_set_isSome _ _ _ _
                  (leaveOldStream_streams_isSome st sock sid2 hsome)

/-- Claim C9: no completed operation removes a registered stream: every stream
id registered before a step is still registered after it. -/
theorem c9_streams_never_deleted (st : ServerState) (e : Event) (st2 : ServerState)
    (outs : List Emit) (h : stepEvent st e = some (st2, outs)) :
    ∀ sid, (mapGet st.streams sid).isSome = true →
      (mapGet st2.streams sid).isSome = true := by
  intro sid hsome
  cases e with
  | connect sock uuid =>
      simp only [stepEvent, Option.some.injEq] at h
      have h1 : (handleConnection st sock uuid).1 = st2 := congrArg Prod.fst h
      rw [← h1]
      exact hsome
  | create sock uuid now data =>
      simp only [stepEvent] at h
      cases data with
      | none => simp [handleCreate, Except.toOption] at h
      | some d =>
          simp only [handleCreate] at h
          split at h
          · simp only [Except.toOption, Option.some.injEq, Prod.mk.injEq] at h
            rw [← h.1]
            exact hsome
          · simp only [Except.toOption, Option.some.injEq, Prod.mk.injEq] at h
            rw [← h.1]
            exact mapGet_set_isSome _ _ _ _ hsome
  | join sock nid data =>
      simp only [stepEvent] at h
      cases hc : handleJoin st sock nid data with
      | error err =>
          rw [hc] at h
          simp [Except.toOption] at h
      | ok p =>
          rw [hc] at h
          simp only [Except.toOption, Option.some.injEq] at h
          rw [h] at hc
          exact handleJoin_streams_isSome st sock nid data st2 outs hc sid hsome
  | leave sock nid =>
      simp only [stepEvent, Option.some.injEq] at h
      have h1 : (handleLeave st sock nid).1 = st2 := congrArg Prod.fst h
      rw [← h1]
      cases hn : mapGet st.nodeMap sock with
      | none =>
          simp only [handleLeave, hn]
          exact hsome
      | some currentNode =>
          cases hs : currentNode.streamId with
          | none =>
              simp only [handleLeave, hn, hs]
              exact hsome
          | some sid0 =>
              simp only [handleLeave, hn, hs]
              exact leaveCore_streams_isSome st sock sid0 sid hsome
  | push sock now data =>
      simp only [stepEvent] at h
      cases hc : handlePush st sock now data with
      | error err =>
          rw [hc] at h
          simp [Except.toOption] at h
      | ok p =>
          rw [hc] at h
          simp only [Except.toOption, Option.some.injEq] at h
          rw [h] at hc
          rw [handlePush_state st sock now data st2 outs hc]
          exact hsome
  | list sock =>
      simp only [stepEvent, handleList, Option.some.injEq, Prod.mk.injEq] at h
      rw [← h.1]
      exact hsome
  | disconnect sock =>
      simp only [stepEvent, Option.some.injEq] at h
      have h1 : (handleDisconnect st sock).1 = st2 := congrArg Prod.fst h
      rw [← h1]
      cases hn : mapGet st.nodeMap sock with
      | none =>
          simp only [handleDisconnect, disconnectCore, hn]
          exact hsome
      | some currentNode =>
          cases hs : currentNode.streamId with
          | none =>
              simp only [handleDisconnect, disconnectCore, hn, hs]
              exact hsome
          | some sid0 =>
              cases hgs : mapGet st.streams sid0 with
              | none =>
                  simp only [handleDisconnect, disconnectCore, hn, hs, hgs]
                  exact hsome
              | some stream =>
                  simp only [handleDisconnect, disconnectCore, hn, hs, hgs]
                  exact mapGet_set_isSome _ _ _ _ hsome

/-- Witness for C9: stream S1 stays registered after the disconnect of its
member sA. -/
theorem c9_streams_never_deleted_witness :
    (mapGet (handleDisconnect stW "sA").1.streams "S1").isSome = true :=
  c9_streams_never_deleted stW (Event.disconnect "sA") (handleDisconnect stW "sA").1
    (handleDisconnect stW "sA").2 (by rfl) "S1" (by decide)

/-- Claim C3: a successful push by a member of stream sid emits exactly one
log broadcast, addressed to the room of sid, whose recipient set equals the
member set of sid at the moment of the push (each recipient once, the sender
included), and the message carries the sender nodeId, the stream id, the
payload, the level defaulted to INFO, and the server timestamp. -/
theorem c3_fanout (st : ServerState) (sock : String) (now : Nat) (d : PushInput)
    (info : NodeInfo) (sid : String) (hInv : ServerInv st)
    (hn : mapGet st.nodeMap sock = some info) (hs : info.streamId = some sid)
    (hp : falsyStr d.payload = false) :
    ∃ stream, mapGet st.streams sid = some stream ∧
      handlePush st sock now (some d) =
        Except.ok (st,
          [Emit.logBroadcast sid
            { streamId := sid, nodeId := info.nodeId, payload := d.payload.getD "",
              level := d.level.getD "INFO", timestamp := now },
           Emit.pushResult sock PushResult.ok]) ∧
      (∀ x, x ∈ roomMembers st sid ↔ x ∈ stream.nodes) ∧
      (roomMembers st sid).Nodup ∧ sock ∈ stream.nodes := by
  obtain ⟨stream, hgs, hmem⟩ := hInv.1.1 sock info sid hn hs
  refine ⟨stream, hgs, ?_, ?_, ?_, hmem⟩
  · simp [handlePush, hn, hs, hp]
  · intro x
    rw [hInv.2.1 sid x]
    constructor
    · rintro ⟨desc, hd, hm⟩
      cases mapGet_det hd hgs
      exact hm
    · intro hm
      exact ⟨stream, hgs, hm⟩
  · exact hInv.2.2.2 sid

/-- Witness for C3: the push of p1 by sA on the concrete two-member stream is
broadcast to the room of S1, whose members are exactly the member set. -/
theorem c3_fanout_witness :
    ∃ stream, mapGet stW.streams "S1" = some stream ∧
      handlePush stW "sA" 42 (some ⟨some "p1", none⟩) =
        Except.ok (stW,
          [Emit.logBroadcast "S1"
            { streamId := "S1", nodeId := "node-aaaa1111", payload := "p1",
              level := "INFO", timestamp := 42 },
           Emit.pushResult "sA" PushResult.ok]) ∧
      (∀ x, x ∈ roomMembers stW "S1" ↔ x ∈ stream.nodes) ∧
      (roomMembers stW "S1").Nodup ∧ "sA" ∈ stream.nodes :=
  c3_fanout stW "sA" 42 ⟨some "p1", none⟩ ⟨"node-aaaa1111", some "S1"⟩ "S1"
    (inv_runTrace initState esW inv_initState (by decide)) (by decide) rfl rfl

/-- Claim C7 (code bug): an event emitted with no data object makes the create
and join handlers throw in the destructuring of data, and likewise the push
handler when the sender holds a membership, instead of being a harmless no-op
as the specification requires. -/
theorem c7_malformed_throws :
    handleCreate initState "s1" "u1" 0 none = Except.error ()
    ∧ handleJoin initState "s1" "n1" none = Except.error ()
    ∧ handlePush stW "sA" 0 none = Except.error () :=
  ⟨rfl, rfl, rfl⟩

/-- The stream ids carried by successful create results. -/
def createdStreamIds (ems : List Emit) : List String :=
  ems.filterMap (fun e => match e with
    | Emit.createResult _ (CreateResult.ok sid _) => some sid
    | _ => none)

/-- The node ids carried by node-assigned events. -/
def assignedNodeIds (ems : List Emit) : List String :=
  ems.filterMap (fun e => match e with
    | Emit.nodeAssigned _ nid => some nid
    | _ => none)

/-- The uuid draws consumed by the create events of a trace. -/
def createUuids (es : List Event) : List String :=
  es.filterMap (fun e => match e with
    | Event.create _ uuid _ _ => some uuid
    | _ => none)

/-- The uuid draws consumed by the connect events of a trace. -/
def connectUuids (es : List Event) : List String :=
  es.filterMap (fun e => match e with
    | Event.connect _ uuid => some uuid
    | _ => none)

theorem createdStreamIds_append (a b : List Emit) :
    createdStreamIds (a ++ b) = createdStreamIds a ++ createdStreamIds b := by
  simp [createdStreamIds]

theorem assignedNodeIds_append (a b : List Emit) :
    assignedNodeIds (a ++ b) = assignedNodeIds a ++ assignedNodeIds b := by
  simp [assignedNodeIds]

theorem createUuids_cons (e : Event) (rest : List Event) :
    createUuids (e :: rest) = createUuids [e] ++ createUuids rest := by
  cases e <;> simp [createUuids]

theorem connectUuids_cons (e : Event) (rest : List Event) :
    connectUuids (e :: rest) = connectUuids [e] ++ connectUuids rest := by
  cases e <;> simp [connectUuids]

theorem leaveOldStream_ids (st : ServerState) (sock : String) :
    createdStreamIds (leaveOldStream st sock).2 = []
    ∧ assignedNodeIds (leaveOldStream st sock).2 = [] := by
  cases hn : mapGet st.nodeMap sock with
  | none => simp [leaveOldStream, hn, createdStreamIds, assignedNodeIds]
  | some currentNode =>
      cases hs : currentNode.streamId with
      | none => simp [leaveOldStream, hn, hs, createdStreamIds, assignedNodeIds]
      | some oldId =>
          cases hgs : mapGet st.streams oldId with
          | none =>
              simp [leaveOldStream, hn, hs, leaveCore, hgs, createdStreamIds,
                assignedNodeIds]
          | some stream =>
              simp [leaveOldStream, hn, hs, leaveCore, hgs, createdStreamIds,
                assignedNodeIds, broadcastNodeList]

theorem handleJoin_ids (st : ServerState) (sock nid : String) (data : Option JoinInput)
    (st2 : ServerState) (outs : List Emit)
    (h : handleJoin st sock nid data = Except.ok (st2, outs)) :
    createdStreamIds outs = [] ∧ assignedNodeIds outs = [] := by
  cases data with
  | none => simp [handleJoin] at h
  | some d =>
      simp only [handleJoin] at h
      cases hsid : d.streamId with
      | none =>
          simp only [hsid, Except.ok.injEq, Prod.mk.injEq] at h
          rw [← h.2]
          simp [createdStreamIds, assignedNodeIds]
      | some sid =>
          simp only [hsid] at h
          cases hgs : mapGet st.streams sid with
          | none =>
              simp only [hgs, Except.ok.injEq, Prod.mk.injEq] at h
              rw [← h.2]
              simp [createdStreamIds, assignedNodeIds]
          | some stream =>
              simp only [hgs] at h
              by_cases hpw : d.passwordHash ≠ some stream.passwordHash
              · rw [if_pos hpw] at h
                simp only [Except.ok.injEq, Prod.mk.injEq] at h
                rw [← h.2]
                simp [createdStreamIds, assignedNodeIds]
              · rw [if_neg hpw] at h
                simp only [Except.ok.injEq, Prod.mk.injEq] at h
                constructor
                · rw [← h.2, createdStreamIds_append, (leaveOldStream_ids st sock).1]
                  simp [createdStreamIds, broadcastNodeList]
                · rw [← h.2, assignedNodeIds_append, (leaveOldStream_ids st sock).2]
                  simp [assignedNodeIds, broadcastNodeList]

theorem handleLeave_ids (st : ServerState) (sock nid : String) :
    createdStreamIds (handleLeave st sock nid).2 = []
    ∧ assignedNodeIds (handleLeave st sock nid).2 = [] := by
  cases hn : mapGet st.nodeMap sock with
  | none => simp [handleLeave, hn, createdStreamIds, assignedNodeIds]
  | some currentNode =>
      cases hs : currentNode.streamId with
      | none => simp [handleLeave, hn, hs, createdStreamIds, assignedNodeIds]
      | some sid =>
          cases hgs : mapGet st.streams sid with
          | none =>
              simp [handleLeave, hn, hs, leaveCore, hgs, createdStreamIds,
                assignedNodeIds]
          | some stream =>
              simp [handleLeave, hn, hs, leaveCore, hgs, createdStreamIds,
                assignedNodeIds, broadcastNodeList]

theorem handlePush_ids (st : ServerState) (sock : String) (now : Nat)
    (data : Option PushInput) (st2 : ServerState) (outs : List Emit)
    (h : handlePush st sock now data = Except.ok (st2, outs)) :
    createdStreamIds outs = [] ∧ assignedNodeIds outs = [] := by
  simp only [handlePush] at h
  split at h
  · simp only [Except.ok.injEq, Prod.mk.injEq] at h
    rw [← h.2]
    simp [createdStreamIds, assignedNodeIds]
  · split at h
    · simp only [Except.ok.injEq, Prod.mk.injEq] at h
      rw [← h.2]
      simp [createdStreamIds, assignedNodeIds]
    · split at h
      · simp at h
      · split at h
        · simp only [Except.ok.injEq, Prod.mk.injEq] at h
          rw [← h.2]
          simp [createdStreamIds, assignedNodeIds]
        · simp only [Except.ok.injEq, Prod.mk.injEq] at h
          rw [← h.2]
          simp [createdStreamIds, assignedNodeIds]

theorem handleDisconnect_ids (st : ServerState) (sock : String) :
    createdStreamIds (handleDisconnect st sock).2 = []
    ∧ assignedNodeIds (handleDisconnect st sock).2 = [] := by
  cases hn : mapGet st.nodeMap sock with
  | none => simp [handleDisconnect, disconnectCore, hn, createdStreamIds, assignedNodeIds]
  | some currentNode =>
      cases hs : currentNode.streamId with
      | none =>
          simp [handleDisconnect, disconnectCore, hn, hs, createdStreamIds,
            assignedNodeIds]
      | some sid =>
          cases hgs : mapGet st.streams sid with
          | none =>
              simp [handleDisconnect, disconnectCore, hn, hs, hgs, createdStreamIds,
                assignedNodeIds]
          | some stream =>
              simp [handleDisconnect, disconnectCore, hn, hs, hgs, createdStreamIds,
                assignedNodeIds, broadcastNodeList]

/-- Per event: a completed step contributes at most its own create draw to the
created stream ids, and exactly its own connect draw to the assigned node ids. -/
theorem stepEvent_ids (st : ServerState) (e : Event) (st2 : ServerState) (outs : List Emit)
    (h : stepEvent st e = some (st2, outs)) :
    List.Sublist (createdStreamIds outs) (createUuids [e])
    ∧ assignedNodeIds outs = (connectUuids [e]).map generateNodeId := by
  cases e with
  | connect sock uuid =>
      simp only [stepEvent, Option.some.injEq] at h
      have h2 : (handleConnection st sock uuid).2 = outs := congrArg Prod.snd h
      rw [← h2]
      refine ⟨?_, ?_⟩
      · simp [handleConnection, createdStreamIds, createUuids]
      · simp [handleConnection, assignedNodeIds, connectUuids]
  | create sock uuid now data =>
      simp only [stepEvent] at h
      cases data with
      | none => simp [handleCreate, Except.toOption] at h
      | some d =>
          simp only [handleCreate] at h
          split at h
          · simp only [Except.toOption, Option.some.injEq, Prod.mk.injEq] at h
            rw [← h.2]
            refine ⟨?_, ?_⟩
            · simp [createdStreamIds, createUuids]
            · simp [assignedNodeIds, connectUuids]
          · simp only [Except.toOption, Option.some.injEq, Prod.mk.injEq] at h
            rw [← h.2]
            refine ⟨?_, ?_⟩
            · simp [createdStreamIds, createUuids]
            · simp [assignedNodeIds, connectUuids]
  | join sock nid data =>
      simp only [stepEvent] at h
      cases hc : handleJoin st sock nid data with
      | error err =>
          rw [hc] at h
          simp [Except.toOption] at h
      | ok p =>
          rw [hc] at h
          simp only [Except.toOption, Option.some.injEq] at h
          rw [h] at hc
          obtain ⟨h1, h2⟩ := handleJoin_ids st sock nid data st2 outs hc
          rw [h1, h2]
          refine ⟨?_, ?_⟩
      <;> simp [createUuids, connectUuids]
  | leave sock nid =>
      simp only [stepEvent, Option.some.injEq] at h
      have h2 : (handleLeave st sock nid).2 = outs := congrArg Prod.snd h
      rw [← h2]
      obtain ⟨h1x, h2x⟩ := handleLeave_ids st sock nid
      rw [h1x, h2x]
      refine ⟨?_, ?_⟩
      <;> simp [createUuids, connectUuids]
  | push sock now data =>
      simp only [stepEvent] at h
      cases hc : handlePush st sock now data with
      | error err =>
          rw [hc] at h
          simp [Except.toOption] at h
      | ok p =>
          rw [hc] at h
          simp only [Except.toOption, Option.some.injEq] at h
          rw [h] at hc
          obtain ⟨h1, h2⟩ := handlePush_ids st sock now data st2 outs hc
          rw [h1, h2]
          refine ⟨?_, ?_⟩
      <;> simp [createUuids, connectUuids]
  | list sock =>
      simp only [stepEvent, handleList, Option.some.injEq, Prod.mk.injEq] at h
      rw [← h.2]
      refine ⟨?_, ?_⟩
      · simp [createdStreamIds, createUuids]
      · simp [assignedNodeIds, connectUuids]
  | disconnect sock =>
      simp only [stepEvent, Option.some.injEq] at h
      have h2 : (handleDisconnect st sock).2 = outs := congrArg Prod.snd h
      rw [← h2]
      obtain ⟨h1x, h2x⟩ := handleDisconnect_ids st sock
      rw [h1x, h2x]
      refine ⟨?_, ?_⟩
      <;> simp [createUuids, connectUuids]

theorem runTrace_created_sublist (st : ServerState) (es : List Event) :
    List.Sublist (createdStreamIds (runTrace st es).2) (createUuids es) := by
  induction es generalizing st with
  | nil => simp [runTrace, createdStreamIds, createUuids]
  | cons e rest ih =>
      rw [createUuids_cons]
      cases hstep : stepEvent st e with
      | none =>
          simp only [runTrace, hstep]
          exact List.Sublist.trans (ih st) (List.sublist_append_right _ _)
      | some p =>
          obtain ⟨st2, outs⟩ := p
          simp only [runTrace, hstep]
          rw [createdStreamIds_append]
          exact List.Sublist.append (stepEvent_ids st e st2 outs hstep).1 (ih st2)

theorem runTrace_assigned (st : ServerState) (es : List Event) :
    assignedNodeIds (runTrace st es).2 = (connectUuids es).map generateNodeId := by
  induction es generalizing st with
  | nil => simp [runTrace, assignedNodeIds, connectUuids]
  | cons e rest ih =>
      rw [connectUuids_cons, List.map_append]
      cases hstep : stepEvent st e with
      | none =>
          cases e with
          | connect sock uuid => simp [stepEvent] at hstep
          | leave sock nid => simp [stepEvent] at hstep
          | list sock => simp [stepEvent] at hstep
          | disconnect sock => simp [stepEvent] at hstep
          | create sock uuid now data =>
              simp only [runTrace, hstep]
              rw [ih st]
              simp [connectUuids]
          | join sock nid data =>
              simp only [runTrace, hstep]
              rw [ih st]
              simp [connectUuids]
          | push sock now data =>
              simp only [runTrace, hstep]
              rw [ih st]
              simp [connectUuids]
      | some p =>
          obtain ⟨st2, outs⟩ := p
          simp only [runTrace, hstep]
          rw [assignedNodeIds_append, (stepEvent_ids st e st2 outs hstep).2, ih st2]

/-- Claim C4 (amended): each completed create returns exactly its own uuidv4
draw as stream id, so the returned stream ids are a sublist of the draws and
are pairwise distinct whenever the draws are; each connection is assigned the
nodeId generated from its own draw, so assigned nodeIds over the process
lifetime are pairwise distinct whenever the node- prefixed eight-character
cuts of the connect draws are. -/
theorem c4_id_uniqueness (st : ServerState) (es : List Event) :
    List.Sublist (createdStreamIds (runTrace st es).2) (createUuids es)
    ∧ assignedNodeIds (runTrace st es).2 = (connectUuids es).map generateNodeId
    ∧ ((createUuids es).Nodup → (createdStreamIds (runTrace st es).2).Nodup)
    ∧ (((connectUuids es).map generateNodeId).Nodup →
        (assignedNodeIds (runTrace st es).2).Nodup) := by
  refine ⟨runTrace_created_sublist st es, runTrace_assigned st es, ?_, ?_⟩
  · intro hnd
    exact List.Nodup.sublist (runTrace_created_sublist st es) hnd
  · intro hnd
    rw [runTrace_assigned st es]
    exact hnd

/-- Counterexample to claim C4 as stated: when the uuidv4 entropy repeats, two
create operations return the same stream id, and two connections whose draws
agree on the first eight characters are assigned the same nodeId even though
the draws differ. -/
theorem c4_counterexample :
    createdStreamIds (runTrace initState
      [Event.create "s1" "u0" 0 (some ⟨some "a", some "p"⟩),
       Event.create "s1" "u0" 1 (some ⟨some "b", some "p"⟩)]).2 = ["u0", "u0"]
    ∧ ¬ (["u0", "u0"] : List String).Nodup
    ∧ assignedNodeIds (runTrace initState
        [Event.connect "sA" "aaaaaaaa-1111", Event.connect "sB" "aaaaaaaa-2222"]).2 =
        ["node-aaaaaaaa", "node-aaaaaaaa"]
    ∧ "aaaaaaaa-1111" ≠ "aaaaaaaa-2222" := by
  refine ⟨by decide, by decide, by decide, by decide⟩

/-- Witness for C4 (amended) on the concrete esW trace with distinct draws. -/
theorem c4_id_uniqueness_witness :
    (createdStreamIds (runTrace initState esW).2).Nodup
    ∧ (assignedNodeIds (runTrace initState esW).2).Nodup :=
  ⟨(c4_id_uniqueness initState esW).2.2.1 (by decide),
   (c4_id_uniqueness initState esW).2.2.2 (by decide)⟩
